import Mathlib

/-!
Verification of the interactive geodesic measurement engine of the qmach
repository: the geometry module (haversine distance, equirectangular
shoelace area, path length), the gesture classifier, the drawing-session
state machine, and the measurement synchronizer, as implemented in the
client script (`polygonAreaMeters`, `lineStringMeters`, `haversineMeters`,
`startDrawing`, `finishDrawing`, the canvas pointer handlers,
`getAllMeasurements`, `onMeasurementInput`).

JavaScript numbers are modelled as real numbers; `parseFloat` results that
may be `NaN` are modelled as `Option ℝ` with `none` for `NaN`.
-/

namespace QMach

open Real

noncomputable section

/-- A geographic point, written `(longitude, latitude)` in decimal degrees,
matching the `[lng, lat]` arrays of the source. -/
abbrev GeoPoint := ℝ × ℝ

/-- The branch structure of JavaScript `Math.atan2(y, x)` over the reals
(signed zeros do not exist in `ℝ`; `atan2 0 0 = 0` as in JS for `+0`). -/
def atan2 (y x : ℝ) : ℝ :=
  if 0 < x then Real.arctan (y / x)
  else if x < 0 then
    (if 0 ≤ y then Real.arctan (y / x) + π else Real.arctan (y / x) - π)
  else if 0 < y then π / 2
  else if y < 0 then -(π / 2)
  else 0

/-- Haversine great-circle distance in meters between two `[lng, lat]`
points, with mean Earth radius 6371008.8 m, exactly as `haversineMeters`
in the source (the `atan2` form). -/
def haversineMeters (a b : GeoPoint) : ℝ :=
  let lat1 := a.2 * π / 180
  let lat2 := b.2 * π / 180
  let dLat := (b.2 - a.2) * π / 180
  let dLng := (b.1 - a.1) * π / 180
  let x := Real.sin (dLat / 2) * Real.sin (dLat / 2) +
    Real.cos lat1 * Real.cos lat2 * (Real.sin (dLng / 2) * Real.sin (dLng / 2))
  6371008.8 * 2 * atan2 (Real.sqrt x) (Real.sqrt (1 - x))

/-- Equirectangular projection of one point, using that point's own
latitude for the cosine scale factor: `[R·rad(lng)·cos(rad(lat)), R·rad(lat)]`. -/
def projPoint (p : GeoPoint) : ℝ × ℝ :=
  (6371008.8 * (p.1 * π / 180) * Real.cos (p.2 * π / 180),
   6371008.8 * (p.2 * π / 180))

/-- One term of the source's shoelace loop:
`(pts[j][0] + pts[i][0]) * (pts[j][1] - pts[i][1])` where `j` precedes `i`. -/
def edgeTerm (prev cur : ℝ × ℝ) : ℝ :=
  (prev.1 + cur.1) * (prev.2 - cur.2)

/-- Last element of a list, or the default when the list is empty
(`pts[n-1]` of the source loop's initial `j`). -/
def lastOr : List (ℝ × ℝ) → (ℝ × ℝ) → (ℝ × ℝ)
  | [], d => d
  | a :: rest, _ => lastOr rest a

/-- Sum of `edgeTerm` over consecutive pairs of the list (the loop
iterations with `i ≥ 1`). -/
def shoelaceConsec : List (ℝ × ℝ) → ℝ
  | a :: b :: rest => edgeTerm a b + shoelaceConsec (b :: rest)
  | _ => 0

/-- The full shoelace accumulator of the source loop: the `i = 0` iteration
pairs the last point with the first (`j` starts at `n - 1`), then the
consecutive pairs follow. -/
def shoelace : List (ℝ × ℝ) → ℝ
  | [] => 0
  | a :: rest => edgeTerm (lastOr rest a) a + shoelaceConsec (a :: rest)

/-- Polygon area in square meters, as `polygonAreaMeters` of the source:
project every point with its own latitude scale, run the shoelace loop
with wraparound, return `|area / 2|`. -/
def polygonAreaMeters (ring : List GeoPoint) : ℝ :=
  |shoelace (ring.map projPoint) / 2|

/-- Total path length in meters, as `lineStringMeters` of the source:
sum of haversine distances of consecutive points, `0` below two points. -/
def lineStringMeters : List GeoPoint → ℝ
  | a :: b :: rest => haversineMeters a b + lineStringMeters (b :: rest)
  | _ => 0

/-- The drawing mode chosen at `startDrawing` (`drawMode` global:
`'polygon' | 'line'`). -/
inductive DrawMode
  | polygon
  | line
deriving DecidableEq

/-- The kind of the stored raw measurement (`drawnRawType` global:
`'area' | 'line'`). -/
inductive RawKind
  | area
  | line
deriving DecidableEq

/-- The finished GeoJSON geometry (`drawnFeature.geometry`): a `Polygon`
holding its (closed) ring, or a `LineString` holding its points. -/
inductive Geometry
  | polygon (ring : List GeoPoint)
  | lineString (points : List GeoPoint)

/-- The module-level mutable state of the measurement engine: the drawing
flag, mode and tracked points of the active session, and the stored
result (`drawnFeature`, `drawnRawMeters`, `drawnPerimeterMeters`,
`drawnRawType`). -/
structure AppState where
  isDrawing : Bool
  drawMode : DrawMode
  trackedPoints : List GeoPoint
  drawnFeature : Option Geometry
  drawnRawMeters : ℝ
  drawnPerimeterMeters : ℝ
  drawnRawType : RawKind

/-- The two finish-time validation failures of the spec's error taxonomy. -/
inductive FinishError
  | insufficientPoints
  | degenerateGeometry
deriving DecidableEq

/-- Outcome of `finishDrawing`: silent no-op when no session is drawing,
a reported failure (toast), or success carrying the finished geometry. -/
inductive FinishResult
  | notDrawing
  | failed (e : FinishError)
  | finished (g : Geometry)

/-- JS `startDrawing(mode)`: no-op while the map is still loading;
otherwise set `drawMode`, set `isDrawing`, reset `trackedPoints` to empty.
The remaining statements of the source function only touch the display
(`draw.deleteAll()`, `clearPreview()`, toolbar, overlay, cursor); none of
them assigns `drawnFeature`, `drawnRawMeters`, `drawnPerimeterMeters` or
`drawnRawType`. -/
def startDrawing (mapLoaded : Bool) (mode : DrawMode) (st : AppState) : AppState :=
  if mapLoaded = false then st
  else { st with drawMode := mode, isDrawing := true, trackedPoints := [] }

/-- JS `finishDrawing()`: no-op unless drawing; fail below 2 points (state
untouched); otherwise set `isDrawing = false` FIRST, then build a closed
polygon when `drawMode === 'polygon' && ptCount >= 3` else a line string,
reject a non-positive area/length (`!sq || sq <= 0`, which over `ℝ` is
`sq ≤ 0`), and on success store the measurement and the feature.
`trackedPoints` is never reassigned by the source function. -/
def finishDrawing (st : AppState) : AppState × FinishResult :=
  if st.isDrawing = false then (st, FinishResult.notDrawing)
  else if st.trackedPoints.length < 2 then
    (st, FinishResult.failed FinishError.insufficientPoints)
  else
    let stopped := { st with isDrawing := false }
    if st.drawMode = DrawMode.polygon ∧ 3 ≤ st.trackedPoints.length then
      let ring := st.trackedPoints ++ [st.trackedPoints.headI]
      let sq := polygonAreaMeters ring
      let perim := lineStringMeters ring
      if sq ≤ 0 then (stopped, FinishResult.failed FinishError.degenerateGeometry)
      else
        ({ stopped with
            drawnRawMeters := sq,
            drawnPerimeterMeters := perim,
            drawnRawType := RawKind.area,
            drawnFeature := some (Geometry.polygon ring) },
          FinishResult.finished (Geometry.polygon ring))
    else
      let len := lineStringMeters st.trackedPoints
      if len ≤ 0 then (stopped, FinishResult.failed FinishError.degenerateGeometry)
      else
        ({ stopped with
            drawnRawMeters := len,
            drawnRawType := RawKind.line,
            drawnFeature := some (Geometry.lineString st.trackedPoints) },
          FinishResult.finished (Geometry.lineString st.trackedPoints))

/-- The candidate start recorded by the `pointerdown` canvas listener
(`_ptrDown = { x, y, time }`). -/
structure PtrCandidate where
  x : ℝ
  y : ℝ
  time : ℝ

/-- The `pointerdown` canvas listener: record a candidate start only while
drawing and only for the primary button (`e.button !== 0` returns; the
`e.button !== undefined` guard is vacuous for pointer events, whose
`button` is always a number). -/
def onPointerDown (isDrawing : Bool) (x y time : ℝ) (button : ℕ)
    (cand : Option PtrCandidate) : Option PtrCandidate :=
  if isDrawing = false then cand
  else if button ≠ 0 then cand
  else some ⟨x, y, time⟩

/-- The `pointerup` canvas listener: no-op (candidate kept) when not
drawing, no candidate, non-primary button, or a release target other than
the canvas; otherwise clear the candidate and append the unprojected
point iff the pixel distance is at most 12 and the elapsed time at most
500 ms. `unproject` is the host map's pixel-to-geocoordinate projection,
applied to the release position relative to the canvas rectangle. -/
def onPointerUp (unproject : ℝ → ℝ → GeoPoint) (rectLeft rectTop : ℝ)
    (isDrawing : Bool) (x y time : ℝ) (button : ℕ) (targetIsCanvas : Bool)
    (cand : Option PtrCandidate) (pts : List GeoPoint) :
    Option PtrCandidate × List GeoPoint :=
  match cand with
  | none => (none, pts)
  | some c =>
    if isDrawing = false then (some c, pts)
    else if button ≠ 0 then (some c, pts)
    else if targetIsCanvas = false then (some c, pts)
    else
      let dx := x - c.x
      let dy := y - c.y
      let dist := Real.sqrt (dx * dx + dy * dy)
      let elapsed := time - c.time
      if 12 < dist then (none, pts)
      else if 500 < elapsed then (none, pts)
      else (none, pts ++ [unproject (x - rectLeft) (y - rectTop)])

/-- The four measurement unit boxes. -/
inductive MUnit
  | sqft
  | linft
  | sqyd
  | acre
deriving DecidableEq

/-- The derived unit-value set returned by `getAllMeasurements`; `none`
models JS `null`. -/
structure UnitVals where
  sqft : Option ℝ
  linft : Option ℝ
  sqyd : Option ℝ
  acre : Option ℝ

/-- Project one field of a `UnitVals`. -/
def UnitVals.get (m : UnitVals) : MUnit → Option ℝ
  | MUnit.sqft => m.sqft
  | MUnit.linft => m.linft
  | MUnit.sqyd => m.sqyd
  | MUnit.acre => m.acre

/-- The `parseFloat` results of the four manual input boxes (`none` models
`NaN` from an empty or non-numeric box). -/
structure BoxVals where
  sqft : Option ℝ
  linft : Option ℝ
  sqyd : Option ℝ
  acre : Option ℝ

/-- Project one field of a `BoxVals`. -/
def BoxVals.get (b : BoxVals) : MUnit → Option ℝ
  | MUnit.sqft => b.sqft
  | MUnit.linft => b.linft
  | MUnit.sqyd => b.sqyd
  | MUnit.acre => b.acre

/-- JS `v > 0` on a `parseFloat` result: keep the value only if it parsed
and is positive (`NaN > 0` is false). -/
def posOf : Option ℝ → Option ℝ
  | some v => if 0 < v then some v else none
  | none => none

/-- JS `getAllMeasurements()`: when `drawnRawMeters > 0` derive all four
units from the raw measurement by kind; otherwise fall back to the first
positive manual box in the checked order sqft, sqyd, acre, linft; with no
positive box anywhere return all zeros. -/
def getAllMeasurements (st : AppState) (boxes : BoxVals) : UnitVals :=
  if 0 < st.drawnRawMeters then
    if st.drawnRawType = RawKind.line then
      { sqft := none, linft := some (st.drawnRawMeters * 3.28084),
        sqyd := some (st.drawnRawMeters * 1.09361), acre := none }
    else
      { sqft := some (st.drawnRawMeters * 10.7639),
        linft := if 0 < st.drawnPerimeterMeters then
            some (st.drawnPerimeterMeters * 3.28084) else none,
        sqyd := some (st.drawnRawMeters * 1.19599),
        acre := some (st.drawnRawMeters / 4046.86) }
  else
    match posOf boxes.sqft with
    | some v => { sqft := some v, linft := none, sqyd := some (v / 9),
                  acre := some (v / 43560) }
    | none =>
      match posOf boxes.sqyd with
      | some v => { sqft := some (v * 9), linft := none, sqyd := some v,
                    acre := some ((v * 9) / 43560) }
      | none =>
        match posOf boxes.acre with
        | some v => { sqft := some (v * 43560), linft := none,
                      sqyd := some ((v * 43560) / 9), acre := some v }
        | none =>
          match posOf boxes.linft with
          | some v => { sqft := none, linft := some v, sqyd := none, acre := none }
          | none => { sqft := some 0, linft := some 0, sqyd := some 0, acre := some 0 }

/-- JS `['sqft','linft','sqyd','acre'].some(...)` check of
`onMeasurementInput`: is any box other than the edited unit positive. -/
def anyOtherFilled (unit : MUnit) (boxes : BoxVals) : Bool :=
  [MUnit.sqft, MUnit.linft, MUnit.sqyd, MUnit.acre].any fun u =>
    if u = unit then false
    else
      match posOf (boxes.get u) with
      | some _ => true
      | none => false

/-- JS `onMeasurementInput(unit, value)`: on a `NaN` or non-positive value,
reset the raw measurement to zero only when every other box is empty;
otherwise re-derive `drawnRawMeters` from the edited unit with the inverse
conversion constant — except that a `linft` edit on an area measurement
adjusts `drawnPerimeterMeters` only. `drawnRawType` is never assigned. -/
def onMeasurementInput (unit : MUnit) (value : Option ℝ) (boxes : BoxVals)
    (st : AppState) : AppState :=
  match posOf value with
  | none =>
    if anyOtherFilled unit boxes = false then
      { st with drawnRawMeters := 0, drawnPerimeterMeters := 0 }
    else st
  | some v =>
    if st.drawnRawType = RawKind.line then
      if unit = MUnit.linft then { st with drawnRawMeters := v / 3.28084 }
      else if unit = MUnit.sqyd then { st with drawnRawMeters := v / 1.09361 }
      else { st with drawnRawMeters := v / 3.28084 }
    else
      if unit = MUnit.sqft then { st with drawnRawMeters := v / 10.7639 }
      else if unit = MUnit.linft then { st with drawnPerimeterMeters := v / 3.28084 }
      else if unit = MUnit.sqyd then { st with drawnRawMeters := v / 1.19599 }
      else { st with drawnRawMeters := v * 4046.86 }

/-- A concrete Drawing session in Line mode holding two points a quarter
turn apart on the equator. -/
def stLine : AppState :=
  { isDrawing := true, drawMode := DrawMode.line,
    trackedPoints := [((0:ℝ), 0), ((180:ℝ), 0)],
    drawnFeature := none, drawnRawMeters := 0, drawnPerimeterMeters := 0,
    drawnRawType := RawKind.area }

/-- The state `finishDrawing` produces from `stLine`. -/
def stLineDone : AppState :=
  { stLine with
      isDrawing := false,
      drawnRawMeters := lineStringMeters stLine.trackedPoints,
      drawnRawType := RawKind.line,
      drawnFeature := some (Geometry.lineString stLine.trackedPoints) }

/-- A concrete Drawing session in Line mode holding the same point twice,
whose computed length is zero (degenerate geometry). -/
def stDegenerate : AppState :=
  { isDrawing := true, drawMode := DrawMode.line,
    trackedPoints := [((0:ℝ), 0), ((0:ℝ), 0)],
    drawnFeature := none, drawnRawMeters := 0, drawnPerimeterMeters := 0,
    drawnRawType := RawKind.area }

/-- A concrete Drawing session with a single tracked point. -/
def stOnePoint : AppState :=
  { isDrawing := true, drawMode := DrawMode.polygon,
    trackedPoints := [((0:ℝ), 0)],
    drawnFeature := none, drawnRawMeters := 0, drawnPerimeterMeters := 0,
    drawnRawType := RawKind.area }

/-- A concrete Finished session with a stored Geometry and RawMeasurement. -/
def stFinished : AppState :=
  { isDrawing := false, drawMode := DrawMode.line,
    trackedPoints := [],
    drawnFeature := some (Geometry.lineString [((0:ℝ), 0), ((180:ℝ), 0)]),
    drawnRawMeters := 5, drawnPerimeterMeters := 0, drawnRawType := RawKind.line }

/-- A concrete Area raw measurement: 1 m² with a 2 m perimeter. -/
def stArea : AppState :=
  { isDrawing := false, drawMode := DrawMode.polygon,
    trackedPoints := [],
    drawnFeature := none, drawnRawMeters := 1, drawnPerimeterMeters := 2,
    drawnRawType := RawKind.area }

/-- Manual input boxes that are all empty. -/
def boxesEmpty : BoxVals :=
  { sqft := none, linft := none, sqyd := none, acre := none }

lemma finishDrawing_not (st : AppState) (h : st.isDrawing = false) :
    finishDrawing st = (st, FinishResult.notDrawing) := by
  simp [finishDrawing, h]

lemma finishDrawing_insufficient (st : AppState) (h : st.isDrawing = true)
    (hlt : st.trackedPoints.length < 2) :
    finishDrawing st = (st, FinishResult.failed FinishError.insufficientPoints) := by
  simp [finishDrawing, h, hlt]

lemma finishDrawing_polygon_case (st : AppState) (h : st.isDrawing = true)
    (_hge : 2 ≤ st.trackedPoints.length)
    (hc : st.drawMode = DrawMode.polygon ∧ 3 ≤ st.trackedPoints.length) :
    finishDrawing st =
      if polygonAreaMeters (st.trackedPoints ++ [st.trackedPoints.headI]) ≤ 0 then
        ({ st with isDrawing := false },
          FinishResult.failed FinishError.degenerateGeometry)
      else
        ({ st with
            isDrawing := false,
            drawnRawMeters :=
              polygonAreaMeters (st.trackedPoints ++ [st.trackedPoints.headI]),
            drawnPerimeterMeters :=
              lineStringMeters (st.trackedPoints ++ [st.trackedPoints.headI]),
            drawnRawType := RawKind.area,
            drawnFeature :=
              some (Geometry.polygon (st.trackedPoints ++ [st.trackedPoints.headI])) },
          FinishResult.finished
            (Geometry.polygon (st.trackedPoints ++ [st.trackedPoints.headI]))) := by
  simp only [finishDrawing]
  rw [if_neg (by simp [h]), if_neg (by omega), if_pos hc]

lemma finishDrawing_line_case (st : AppState) (h : st.isDrawing = true)
    (hge : 2 ≤ st.trackedPoints.length)
    (hc : ¬(st.drawMode = DrawMode.polygon ∧ 3 ≤ st.trackedPoints.length)) :
    finishDrawing st =
      if lineStringMeters st.trackedPoints ≤ 0 then
        ({ st with isDrawing := false },
          FinishResult.failed FinishError.degenerateGeometry)
      else
        ({ st with
            isDrawing := false,
            drawnRawMeters := lineStringMeters st.trackedPoints,
            drawnRawType := RawKind.line,
            drawnFeature := some (Geometry.lineString st.trackedPoints) },
          FinishResult.finished (Geometry.lineString st.trackedPoints)) := by
  simp only [finishDrawing]
  rw [if_neg (by simp [h]), if_neg (by omega), if_neg hc]

lemma finishDrawing_finished_cases (st st2 : AppState) (g : Geometry)
    (h : finishDrawing st = (st2, FinishResult.finished g)) :
    st.isDrawing = true ∧ 2 ≤ st.trackedPoints.length ∧
      ((st.drawMode = DrawMode.polygon ∧ 3 ≤ st.trackedPoints.length) ∧
          0 < polygonAreaMeters (st.trackedPoints ++ [st.trackedPoints.headI]) ∧
          g = Geometry.polygon (st.trackedPoints ++ [st.trackedPoints.headI]) ∧
          st2 = { st with
            isDrawing := false,
            drawnRawMeters :=
              polygonAreaMeters (st.trackedPoints ++ [st.trackedPoints.headI]),
            drawnPerimeterMeters :=
              lineStringMeters (st.trackedPoints ++ [st.trackedPoints.headI]),
            drawnRawType := RawKind.area,
            drawnFeature :=
              some (Geometry.polygon (st.trackedPoints ++ [st.trackedPoints.headI])) } ∨
        ¬(st.drawMode = DrawMode.polygon ∧ 3 ≤ st.trackedPoints.length) ∧
          0 < lineStringMeters st.trackedPoints ∧
          g = Geometry.lineString st.trackedPoints ∧
          st2 = { st with
            isDrawing := false,
            drawnRawMeters := lineStringMeters st.trackedPoints,
            drawnRawType := RawKind.line,
            drawnFeature := some (Geometry.lineString st.trackedPoints) }) := by
  by_cases hd : st.isDrawing = true
  · by_cases hlt : st.trackedPoints.length < 2
    · rw [finishDrawing_insufficient st hd hlt] at h
      simp at h
    · have hge : 2 ≤ st.trackedPoints.length := by omega
      by_cases hc : st.drawMode = DrawMode.polygon ∧ 3 ≤ st.trackedPoints.length
      · rw [finishDrawing_polygon_case st hd hge hc] at h
        by_cases hsq :
            polygonAreaMeters (st.trackedPoints ++ [st.trackedPoints.headI]) ≤ 0
        · rw [if_pos hsq] at h
          simp at h
        · rw [if_neg hsq] at h
          rw [Prod.mk.injEq] at h
          refine ⟨hd, hge, Or.inl ⟨hc, lt_of_not_le hsq, ?_, h.1.symm⟩⟩
          cases h.2
          rfl
      · rw [finishDrawing_line_case st hd hge hc] at h
        by_cases hlen : lineStringMeters st.trackedPoints ≤ 0
        · rw [if_pos hlen] at h
          simp at h
        · rw [if_neg hlen] at h
          rw [Prod.mk.injEq] at h
          refine ⟨hd, hge, Or.inr ⟨hc, lt_of_not_le hlen, ?_, h.1.symm⟩⟩
          cases h.2
          rfl
  · have hd2 : st.isDrawing = false := by
      cases hb : st.isDrawing
      · rfl
      · exact absurd hb hd
    rw [finishDrawing_not st hd2] at h
    simp at h

lemma lastOr_concat (y d : ℝ × ℝ) : ∀ l : List (ℝ × ℝ), lastOr (l ++ [y]) d = y := by
  intro l
  induction l generalizing d with
  | nil => rfl
  | cons a rest ih => simpa [lastOr] using ih a

lemma shoelaceConsec_concat (y : ℝ × ℝ) :
    ∀ (a : ℝ × ℝ) (xs : List (ℝ × ℝ)),
      shoelaceConsec ((a :: xs) ++ [y]) =
        shoelaceConsec (a :: xs) + edgeTerm (lastOr xs a) y := by
  intro a xs
  induction xs generalizing a with
  | nil => simp [shoelaceConsec, lastOr]
  | cons b rest ih =>
      have h := ih b
      simp only [List.cons_append, List.append_eq, shoelaceConsec, lastOr] at h ⊢
      rw [h]
      ring

lemma shoelace_concat_head (a : ℝ × ℝ) (rest : List (ℝ × ℝ)) :
    shoelace ((a :: rest) ++ [a]) = shoelace (a :: rest) := by
  have hlast : lastOr (rest ++ [a]) a = a := lastOr_concat a a rest
  have hsum := shoelaceConsec_concat a a rest
  simp only [List.cons_append] at hsum ⊢
  simp only [shoelace, hlast, hsum]
  have hzero : edgeTerm a a = 0 := by simp [edgeTerm]
  rw [hzero]
  ring

/-- Claim C10: `polygonAreaMeters` of a non-empty ring is unchanged by
appending the first point again at the end (the shoelace loop already
wraps from the last point to the first, and the duplicated closing edge
contributes zero), and the result is always non-negative. -/
theorem polygonArea_closure_nonneg :
    (∀ (p : GeoPoint) (rest : List GeoPoint),
      polygonAreaMeters ((p :: rest) ++ [p]) = polygonAreaMeters (p :: rest)) ∧
    (∀ ring : List GeoPoint, 0 ≤ polygonAreaMeters ring) := by
  constructor
  · intro p rest
    unfold polygonAreaMeters
    have hmap : ((p :: rest) ++ [p]).map projPoint =
        (projPoint p :: rest.map projPoint) ++ [projPoint p] := by
      simp
    rw [hmap, shoelace_concat_head, List.map_cons]
  · intro ring
    exact abs_nonneg _

lemma haversine_self (p : GeoPoint) : haversineMeters p p = 0 := by
  simp [haversineMeters, atan2]

lemma haversine_equator :
    haversineMeters ((0:ℝ), 0) ((180:ℝ), 0) = 6371008.8 * 2 * (π / 2) := by
  have hx : Real.sin ((180:ℝ) * π / 180 / 2) = 1 := by
    rw [show (180:ℝ) * π / 180 / 2 = π / 2 from by ring, Real.sin_pi_div_two]
  simp [haversineMeters, atan2, hx]

lemma lineStringMeters_pair (a b : GeoPoint) :
    lineStringMeters [a, b] = haversineMeters a b := by
  simp [lineStringMeters]

lemma stLine_len_pos : 0 < lineStringMeters stLine.trackedPoints := by
  have h : lineStringMeters stLine.trackedPoints = 6371008.8 * 2 * (π / 2) := by
    rw [show stLine.trackedPoints = [((0:ℝ), 0), ((180:ℝ), 0)] from rfl,
      lineStringMeters_pair, haversine_equator]
  rw [h]
  positivity

lemma finishDrawing_stLine :
    finishDrawing stLine =
      (stLineDone, FinishResult.finished (Geometry.lineString stLine.trackedPoints)) := by
  rw [finishDrawing_line_case stLine rfl (by norm_num [stLine]) (by simp [stLine])]
  rw [if_neg (not_le.mpr stLine_len_pos)]
  rfl

lemma stDegenerate_len_zero : lineStringMeters stDegenerate.trackedPoints = 0 := by
  rw [show stDegenerate.trackedPoints = [((0:ℝ), 0), ((0:ℝ), 0)] from rfl,
    lineStringMeters_pair, haversine_self]

/-- Claim C1 is violated by the code (code bug, acknowledged by the spec's
design note): on a finish that fails with DegenerateGeometry, the session
does NOT remain Drawing — `finishDrawing` sets `isDrawing = false` before
the degeneracy check. Witnessed by a Drawing session in Line mode holding
the same point twice: finish fails with DegenerateGeometry, yet the
resulting state has the drawing flag cleared. (On the InsufficientPoints
path the code does remain Drawing, as claimed.) -/
theorem finish_degenerate_leaves_drawing_bug :
    (finishDrawing stDegenerate).2 = FinishResult.failed FinishError.degenerateGeometry ∧
    (finishDrawing stDegenerate).1.isDrawing = false := by
  have h := finishDrawing_line_case stDegenerate rfl (by norm_num [stDegenerate])
    (by simp [stDegenerate])
  rw [if_pos (le_of_eq stDegenerate_len_zero)] at h
  rw [h]
  exact ⟨rfl, rfl⟩

/-- Claim C2: on a Drawing session, finish with fewer than 2 points fails
with InsufficientPoints leaving the state (hence the Drawing flag and the
tracked list) unchanged; with 2 or more points it proceeds to geometry
construction (the outcome is success or DegenerateGeometry, never
InsufficientPoints); and in polygon (Area) mode with 3 or more points a
successful finish produces the closed Polygon and a Finished state (flag
cleared, feature stored). -/
theorem finish_point_thresholds (st : AppState) (h : st.isDrawing = true) :
    (st.trackedPoints.length < 2 →
      finishDrawing st = (st, FinishResult.failed FinishError.insufficientPoints)) ∧
    (2 ≤ st.trackedPoints.length →
      (∃ g, (finishDrawing st).2 = FinishResult.finished g) ∨
        (finishDrawing st).2 = FinishResult.failed FinishError.degenerateGeometry) ∧
    (st.drawMode = DrawMode.polygon → 3 ≤ st.trackedPoints.length →
      ∀ st2 g, finishDrawing st = (st2, FinishResult.finished g) →
        g = Geometry.polygon (st.trackedPoints ++ [st.trackedPoints.headI]) ∧
        st2.isDrawing = false ∧ st2.drawnFeature = some g) := by
  refine ⟨fun hlt => finishDrawing_insufficient st h hlt, fun hge => ?_,
    fun hpm h3 st2 g hfin => ?_⟩
  · by_cases hc : st.drawMode = DrawMode.polygon ∧ 3 ≤ st.trackedPoints.length
    · rw [finishDrawing_polygon_case st h hge hc]
      by_cases hsq :
          polygonAreaMeters (st.trackedPoints ++ [st.trackedPoints.headI]) ≤ 0
      · rw [if_pos hsq]
        exact Or.inr rfl
      · rw [if_neg hsq]
        exact Or.inl ⟨_, rfl⟩
    · rw [finishDrawing_line_case st h hge hc]
      by_cases hlen : lineStringMeters st.trackedPoints ≤ 0
      · rw [if_pos hlen]
        exact Or.inr rfl
      · rw [if_neg hlen]
        exact Or.inl ⟨_, rfl⟩
  · obtain ⟨-, -, hcase⟩ := finishDrawing_finished_cases st st2 g hfin
    rcases hcase with ⟨hc, hpos, hg, hst⟩ | ⟨hc, hpos, hg, hst⟩
    · exact ⟨hg, by simp [hst], by simp [hst, hg]⟩
    · exact absurd ⟨hpm, h3⟩ hc

/-- Claim C2 witness: a Drawing session with one tracked point satisfies
the hypotheses, and finish on it fails with InsufficientPoints leaving the
state unchanged. -/
theorem finish_point_thresholds_witness :
    stOnePoint.trackedPoints.length < 2 ∧
    finishDrawing stOnePoint = (stOnePoint, FinishResult.failed FinishError.insufficientPoints) :=
  ⟨by norm_num [stOnePoint],
    (finish_point_thresholds stOnePoint rfl).1 (by norm_num [stOnePoint])⟩

/-- Claim C4: on every successful finish, in polygon (Area) mode with at
least 3 points the geometry is the closed Polygon over the tracked points
with the first point appended, the stored value is `polygonAreaMeters` of
that ring and the stored perimeter is `lineStringMeters` of the closed
ring, with kind Area; in every other case the geometry is the LineString
of the tracked points as-is, the stored value is `lineStringMeters` of
those points, with kind Line. -/
theorem finish_geometry_choice (st st2 : AppState) (g : Geometry)
    (h : finishDrawing st = (st2, FinishResult.finished g)) :
    (st.drawMode = DrawMode.polygon ∧ 3 ≤ st.trackedPoints.length →
      g = Geometry.polygon (st.trackedPoints ++ [st.trackedPoints.headI]) ∧
      st2.drawnRawMeters =
        polygonAreaMeters (st.trackedPoints ++ [st.trackedPoints.headI]) ∧
      st2.drawnPerimeterMeters =
        lineStringMeters (st.trackedPoints ++ [st.trackedPoints.headI]) ∧
      st2.drawnRawType = RawKind.area) ∧
    (¬(st.drawMode = DrawMode.polygon ∧ 3 ≤ st.trackedPoints.length) →
      g = Geometry.lineString st.trackedPoints ∧
      st2.drawnRawMeters = lineStringMeters st.trackedPoints ∧
      st2.drawnRawType = RawKind.line) := by
  obtain ⟨-, -, hcase⟩ := finishDrawing_finished_cases st st2 g h
  rcases hcase with ⟨hc, hpos, hg, hst⟩ | ⟨hc, hpos, hg, hst⟩
  · exact ⟨fun _ => ⟨hg, by simp [hst], by simp [hst], by simp [hst]⟩,
      fun hn => absurd hc hn⟩
  · exact ⟨fun hcc => absurd hcc hc,
      fun _ => ⟨hg, by simp [hst], by simp [hst]⟩⟩

/-- Claim C4 witness: the concrete successful Line-mode finish from
`stLine` takes the LineString branch with the stated value and kind. -/
theorem finish_geometry_choice_witness :
    Geometry.lineString stLine.trackedPoints = Geometry.lineString stLine.trackedPoints ∧
    stLineDone.drawnRawMeters = lineStringMeters stLine.trackedPoints ∧
    stLineDone.drawnRawType = RawKind.line :=
  (finish_geometry_choice stLine stLineDone (Geometry.lineString stLine.trackedPoints)
    finishDrawing_stLine).2 (by simp [stLine])

/-- Claim C8 is false as stated: here is a successful finish after which
the tracked point list is NOT empty — `finishDrawing` never reassigns
`trackedPoints`. -/
theorem finish_keeps_points_counterexample :
    (finishDrawing stLine).2 =
      FinishResult.finished (Geometry.lineString stLine.trackedPoints) ∧
    (finishDrawing stLine).1.trackedPoints ≠ [] := by
  rw [finishDrawing_stLine]
  refine ⟨rfl, ?_⟩
  simp [stLineDone, stLine]

/-- Claim C8 (amended): on every successful finish the session is Finished
(drawing flag cleared) with the Geometry and a positive RawMeasurement
stored, but the tracked point list is NOT cleared: it is left exactly as
it was (it is discarded only by the next start, cancel or clear). -/
theorem finish_success_state (st st2 : AppState) (g : Geometry)
    (h : finishDrawing st = (st2, FinishResult.finished g)) :
    st2.isDrawing = false ∧ st2.drawnFeature = some g ∧
    0 < st2.drawnRawMeters ∧ st2.trackedPoints = st.trackedPoints := by
  obtain ⟨-, -, hcase⟩ := finishDrawing_finished_cases st st2 g h
  rcases hcase with ⟨hc, hpos, hg, hst⟩ | ⟨hc, hpos, hg, hst⟩ <;>
    subst hg <;> subst hst <;> exact ⟨rfl, rfl, hpos, rfl⟩

/-- Claim C8 (amended) witness: the concrete successful finish from
`stLine`. -/
theorem finish_success_state_witness :
    stLineDone.isDrawing = false ∧
    stLineDone.drawnFeature = some (Geometry.lineString stLine.trackedPoints) ∧
    0 < stLineDone.drawnRawMeters ∧ stLineDone.trackedPoints = stLine.trackedPoints :=
  finish_success_state stLine stLineDone (Geometry.lineString stLine.trackedPoints)
    finishDrawing_stLine

/-- Claim C9 is false as stated: starting a new session from a Finished
state does leave the session Drawing with an empty tracked list and the
requested mode, but the previously stored Geometry and RawMeasurement are
NOT cleared — `startDrawing` never assigns `drawnFeature` or
`drawnRawMeters`. -/
theorem start_keeps_result_counterexample :
    (startDrawing true DrawMode.polygon stFinished).isDrawing = true ∧
    (startDrawing true DrawMode.polygon stFinished).trackedPoints = [] ∧
    (startDrawing true DrawMode.polygon stFinished).drawnFeature =
      some (Geometry.lineString [((0:ℝ), 0), ((180:ℝ), 0)]) ∧
    (startDrawing true DrawMode.polygon stFinished).drawnRawMeters = 5 := by
  refine ⟨?_, ?_, ?_, ?_⟩ <;> simp [startDrawing, stFinished]

/-- Claim C9 (amended): from every prior state, `start(mode)` (with the
map loaded) puts the session in Drawing with an empty tracked point list
and the requested mode — resetting rather than stacking when already
Drawing — while every other field, including any previously stored
Geometry/RawMeasurement result, is retained unchanged (only the on-map
display and preview are cleared; the stored result is replaced only by
the next successful finish or an explicit clear). -/
theorem start_resets_session (mapLoaded : Bool) (mode : DrawMode) (st : AppState)
    (h : mapLoaded = true) :
    startDrawing mapLoaded mode st =
      { st with isDrawing := true, drawMode := mode, trackedPoints := [] } := by
  subst h
  simp [startDrawing]

/-- Claim C9 (amended) witness: starting from the concrete Finished state. -/
theorem start_resets_session_witness :
    startDrawing true DrawMode.polygon stFinished =
      { stFinished with
          isDrawing := true, drawMode := DrawMode.polygon, trackedPoints := [] } :=
  start_resets_session true DrawMode.polygon stFinished rfl

/-- Claim C3: for a pointer-down/pointer-up pair processed from a clean
candidate state while a session is drawing, exactly one point is appended
iff a candidate was recorded on the down (primary down button), the up
button is primary, the release target is the canvas, the pixel distance
is at most 12 and the elapsed time at most 500 ms; in every other case
(pan, long-press, non-primary button, release over UI chrome, no
candidate) the tracked list is unchanged and no error is raised (the
handlers are total). -/
theorem gesture_tap_classification (unproject : ℝ → ℝ → GeoPoint)
    (rectLeft rectTop xd yd td xu yu tu : ℝ) (bd bu : ℕ) (tc : Bool)
    (pts : List GeoPoint) :
    ((bd = 0 ∧ bu = 0 ∧ tc = true ∧
        Real.sqrt ((xu - xd) * (xu - xd) + (yu - yd) * (yu - yd)) ≤ 12 ∧
        tu - td ≤ 500) →
      (onPointerUp unproject rectLeft rectTop true xu yu tu bu tc
          (onPointerDown true xd yd td bd none) pts).2 =
        pts ++ [unproject (xu - rectLeft) (yu - rectTop)]) ∧
    (¬(bd = 0 ∧ bu = 0 ∧ tc = true ∧
        Real.sqrt ((xu - xd) * (xu - xd) + (yu - yd) * (yu - yd)) ≤ 12 ∧
        tu - td ≤ 500) →
      (onPointerUp unproject rectLeft rectTop true xu yu tu bu tc
          (onPointerDown true xd yd td bd none) pts).2 = pts) := by
  by_cases hbd : bd = 0
  · have hdown : onPointerDown true xd yd td bd none = some ⟨xd, yd, td⟩ := by
      simp [onPointerDown, hbd]
    rw [hdown]
    by_cases hbu : bu = 0
    · by_cases htc : tc = true
      · by_cases hdist :
            12 < Real.sqrt ((xu - xd) * (xu - xd) + (yu - yd) * (yu - yd))
        · constructor
          · rintro ⟨-, -, -, hle, -⟩
            exact absurd hdist (not_lt.mpr hle)
          · intro hn
            simp [onPointerUp, hbu, htc, hdist]
        · by_cases hel : 500 < tu - td
          · constructor
            · rintro ⟨-, -, -, -, hle⟩
              exact absurd hel (not_lt.mpr hle)
            · intro hn
              simp [onPointerUp, hbu, htc, hdist, hel]
          · constructor
            · intro hcond
              simp [onPointerUp, hbu, htc, hdist, hel]
            · intro hn
              exact absurd ⟨hbd, hbu, htc, not_lt.mp hdist, not_lt.mp hel⟩ hn
      · have htc2 : tc = false := by
          cases tc
          · rfl
          · exact absurd rfl htc
        constructor
        · rintro ⟨-, -, h3, -⟩
          exact absurd h3 htc
        · intro hn
          simp [onPointerUp, hbu, htc2]
    · constructor
      · rintro ⟨-, h2, -⟩
        exact absurd h2 hbu
      · intro hn
        simp [onPointerUp, hbu]
  · have hdown : onPointerDown true xd yd td bd none = none := by
      simp [onPointerDown, hbd]
    rw [hdown]
    constructor
    · rintro ⟨h1, -⟩
      exact absurd h1 hbd
    · intro hn
      simp [onPointerUp]

/-- Claim C3 witness: a primary-button tap at (100,100), released over the
canvas 100 ms later with zero movement, appends exactly the unprojected
point. -/
theorem gesture_tap_classification_witness :
    ((0:ℕ) = 0 ∧ (0:ℕ) = 0 ∧ true = true ∧
      Real.sqrt (((100:ℝ) - 100) * (100 - 100) + (100 - 100) * (100 - 100)) ≤ 12 ∧
      (100:ℝ) - 0 ≤ 500) ∧
    (onPointerUp (fun a b => (a, b)) 0 0 true 100 100 100 0 true
        (onPointerDown true 100 100 0 0 none) []).2 =
      [(((100:ℝ) - 0), ((100:ℝ) - 0))] := by
  have hs : Real.sqrt (((100:ℝ) - 100) * (100 - 100) + (100 - 100) * (100 - 100)) = 0 := by
    rw [show ((100:ℝ) - 100) * (100 - 100) + (100 - 100) * (100 - 100) = 0 from by ring,
      Real.sqrt_zero]

  have hcond : (0:ℕ) = 0 ∧ (0:ℕ) = 0 ∧ true = true ∧
      Real.sqrt (((100:ℝ) - 100) * (100 - 100) + (100 - 100) * (100 - 100)) ≤ 12 ∧
      (100:ℝ) - 0 ≤ 500 := by
    refine ⟨rfl, rfl, rfl, ?_, by norm_num⟩
    rw [hs]
    norm_num
  exact ⟨hcond,
    (gesture_tap_classification (fun a b => (a, b)) 0 0 100 100 0 100 100 100
      0 0 true []).1 hcond⟩

lemma getAll_line (st : AppState) (boxes : BoxVals) (hpos : 0 < st.drawnRawMeters)
    (hk : st.drawnRawType = RawKind.line) :
    getAllMeasurements st boxes =
      { sqft := none, linft := some (st.drawnRawMeters * 3.28084),
        sqyd := some (st.drawnRawMeters * 1.09361), acre := none } := by
  simp [getAllMeasurements, hpos, hk]

lemma getAll_area (st : AppState) (boxes : BoxVals) (hpos : 0 < st.drawnRawMeters)
    (hk : st.drawnRawType = RawKind.area) :
    getAllMeasurements st boxes =
      { sqft := some (st.drawnRawMeters * 10.7639),
        linft := if 0 < st.drawnPerimeterMeters then
            some (st.drawnPerimeterMeters * 3.28084) else none,
        sqyd := some (st.drawnRawMeters * 1.19599),
        acre := some (st.drawnRawMeters / 4046.86) } := by
  simp [getAllMeasurements, hpos, hk]

/-- Claim C5: when a raw measurement is current, the derived unit set is:
for a Line, linft = value×3.28084, sqyd = value×1.09361, sqft and acre
null; for an Area, sqft = value×10.7639, sqyd = value×1.19599,
acre = value/4046.86, and linft = perimeter×3.28084 when a positive
perimeter is known, null otherwise. -/
theorem deriveAll_unit_values (st : AppState) (boxes : BoxVals)
    (h : 0 < st.drawnRawMeters) :
    (st.drawnRawType = RawKind.line →
      getAllMeasurements st boxes =
        { sqft := none, linft := some (st.drawnRawMeters * 3.28084),
          sqyd := some (st.drawnRawMeters * 1.09361), acre := none }) ∧
    (st.drawnRawType = RawKind.area →
      getAllMeasurements st boxes =
        { sqft := some (st.drawnRawMeters * 10.7639),
          linft := if 0 < st.drawnPerimeterMeters then
              some (st.drawnPerimeterMeters * 3.28084) else none,
          sqyd := some (st.drawnRawMeters * 1.19599),
          acre := some (st.drawnRawMeters / 4046.86) }) :=
  ⟨getAll_line st boxes h, getAll_area st boxes h⟩

/-- Claim C5 witness: the concrete Area measurement of 1 m² with a 2 m
perimeter. -/
theorem deriveAll_unit_values_witness :
    0 < stArea.drawnRawMeters ∧
    getAllMeasurements stArea boxesEmpty =
      { sqft := some (stArea.drawnRawMeters * 10.7639),
        linft := if 0 < stArea.drawnPerimeterMeters then
            some (stArea.drawnPerimeterMeters * 3.28084) else none,
        sqyd := some (stArea.drawnRawMeters * 1.19599),
        acre := some (stArea.drawnRawMeters / 4046.86) } :=
  ⟨by norm_num [stArea],
    (deriveAll_unit_values stArea boxesEmpty (by norm_num [stArea])).2 rfl⟩

/-- Claim C6: the round-trip law. With a current (positive) raw
measurement, editing any unit box with the very value currently derived
for it produces a raw measurement from which re-deriving returns the
original set of four unit values (exactly, over the reals — hence within
floating-point tolerance). -/
theorem derive_edit_roundtrip (st : AppState) (boxes boxes2 : BoxVals)
    (u : MUnit) (x : ℝ) (hpos : 0 < st.drawnRawMeters)
    (hx : (getAllMeasurements st boxes).get u = some x) :
    getAllMeasurements (onMeasurementInput u (some x) boxes2 st) boxes =
      getAllMeasurements st boxes := by
  have c1 : (3.28084:ℝ) ≠ 0 := by norm_num
  have c2 : (1.09361:ℝ) ≠ 0 := by norm_num
  have c3 : (10.7639:ℝ) ≠ 0 := by norm_num
  have c4 : (1.19599:ℝ) ≠ 0 := by norm_num
  have c5 : (4046.86:ℝ) ≠ 0 := by norm_num
  cases hk : st.drawnRawType with
  | line =>
    rw [getAll_line st boxes hpos hk] at hx
    rw [getAll_line st boxes hpos hk]
    cases u with
    | sqft => simp [UnitVals.get] at hx
    | acre => simp [UnitVals.get] at hx
    | linft =>
      simp only [UnitVals.get, Option.some.injEq] at hx
      have hxpos : 0 < x := hx ▸ mul_pos hpos (by norm_num)
      have hst2 : onMeasurementInput MUnit.linft (some x) boxes2 st =
          { st with drawnRawMeters := x / 3.28084 } := by
        simp [onMeasurementInput, posOf, hxpos, hk]
      have hm : x / 3.28084 = st.drawnRawMeters := by
        rw [← hx, mul_div_cancel_right₀ _ c1]
      rw [hst2, getAll_line { st with drawnRawMeters := x / 3.28084 } boxes
        (by simpa [hm] using hpos) hk]
      simp [hm]
    | sqyd =>
      simp only [UnitVals.get, Option.some.injEq] at hx
      have hxpos : 0 < x := hx ▸ mul_pos hpos (by norm_num)
      have hst2 : onMeasurementInput MUnit.sqyd (some x) boxes2 st =
          { st with drawnRawMeters := x / 1.09361 } := by
        simp [onMeasurementInput, posOf, hxpos, hk]
      have hm : x / 1.09361 = st.drawnRawMeters := by
        rw [← hx, mul_div_cancel_right₀ _ c2]
      rw [hst2, getAll_line { st with drawnRawMeters := x / 1.09361 } boxes
        (by simpa [hm] using hpos) hk]
      simp [hm]
  | area =>
    rw [getAll_area st boxes hpos hk] at hx
    rw [getAll_area st boxes hpos hk]
    cases u with
    | sqft =>
      simp only [UnitVals.get, Option.some.injEq] at hx
      have hxpos : 0 < x := hx ▸ mul_pos hpos (by norm_num)
      have hst2 : onMeasurementInput MUnit.sqft (some x) boxes2 st =
          { st with drawnRawMeters := x / 10.7639 } := by
        simp [onMeasurementInput, posOf, hxpos, hk]
      have hm : x / 10.7639 = st.drawnRawMeters := by
        rw [← hx, mul_div_cancel_right₀ _ c3]
      rw [hst2, getAll_area { st with drawnRawMeters := x / 10.7639 } boxes
        (by simpa [hm] using hpos) hk]
      simp [hm]
    | sqyd =>
      simp only [UnitVals.get, Option.some.injEq] at hx
      have hxpos : 0 < x := hx ▸ mul_pos hpos (by norm_num)
      have hst2 : onMeasurementInput MUnit.sqyd (some x) boxes2 st =
          { st with drawnRawMeters := x / 1.19599 } := by
        simp [onMeasurementInput, posOf, hxpos, hk]
      have hm : x / 1.19599 = st.drawnRawMeters := by
        rw [← hx, mul_div_cancel_right₀ _ c4]
      rw [hst2, getAll_area { st with drawnRawMeters := x / 1.19599 } boxes
        (by simpa [hm] using hpos) hk]
      simp [hm]
    | acre =>
      simp only [UnitVals.get, Option.some.injEq] at hx
      have hxpos : 0 < x := hx ▸ div_pos hpos (by norm_num)
      have hst2 : onMeasurementInput MUnit.acre (some x) boxes2 st =
          { st with drawnRawMeters := x * 4046.86 } := by
        simp [onMeasurementInput, posOf, hxpos, hk]
      have hm : x * 4046.86 = st.drawnRawMeters := by
        rw [← hx, div_mul_cancel₀ _ c5]
      rw [hst2, getAll_area { st with drawnRawMeters := x * 4046.86 } boxes
        (by simpa [hm] using hpos) hk]
      simp [hm]
    | linft =>
      by_cases hperim : 0 < st.drawnPerimeterMeters
      · rw [UnitVals.get, if_pos hperim, Option.some.injEq] at hx
        have hxpos : 0 < x := hx ▸ mul_pos hperim (by norm_num)
        have hst2 : onMeasurementInput MUnit.linft (some x) boxes2 st =
            { st with drawnPerimeterMeters := x / 3.28084 } := by
          simp [onMeasurementInput, posOf, hxpos, hk]
        have hp : x / 3.28084 = st.drawnPerimeterMeters := by
          rw [← hx, mul_div_cancel_right₀ _ c1]
        rw [hst2, getAll_area { st with drawnPerimeterMeters := x / 3.28084 } boxes
          (by simpa using hpos) hk]
        simp [hp]
      · rw [UnitVals.get, if_neg hperim] at hx
        exact absurd hx (by simp)

/-- Claim C6 witness: editing sqft with its own derived value 10.7639 on
the concrete 1 m² Area measurement re-derives the original unit set. -/
theorem derive_edit_roundtrip_witness :
    0 < stArea.drawnRawMeters ∧
    (getAllMeasurements stArea boxesEmpty).get MUnit.sqft = some 10.7639 ∧
    getAllMeasurements
        (onMeasurementInput MUnit.sqft (some 10.7639) boxesEmpty stArea) boxesEmpty =
      getAllMeasurements stArea boxesEmpty := by
  have h1 : 0 < stArea.drawnRawMeters := by norm_num [stArea]
  have h2 : (getAllMeasurements stArea boxesEmpty).get MUnit.sqft = some 10.7639 := by
    rw [getAll_area stArea boxesEmpty h1 rfl]
    norm_num [UnitVals.get, stArea]
  exact ⟨h1, h2,
    derive_edit_roundtrip stArea boxesEmpty boxesEmpty MUnit.sqft 10.7639 h1 h2⟩

/-- Claim C7: a unit edit never changes the stored shape kind
(`drawnRawType` is untouched by `onMeasurementInput`, for every unit and
every input value — only a fresh finish sets it); and a positive `linft`
edit on an Area measurement adjusts `drawnPerimeterMeters` only, leaving
the area's `drawnRawMeters` unchanged. -/
theorem edit_frame_conditions (st : AppState) (boxes : BoxVals) (v : ℝ) :
    (∀ (u : MUnit) (value : Option ℝ),
      (onMeasurementInput u value boxes st).drawnRawType = st.drawnRawType) ∧
    (0 < v → st.drawnRawType = RawKind.area →
      (onMeasurementInput MUnit.linft (some v) boxes st).drawnRawMeters =
        st.drawnRawMeters ∧
      (onMeasurementInput MUnit.linft (some v) boxes st).drawnPerimeterMeters =
        v / 3.28084) := by
  constructor
  · intro u value
    cases hpv : posOf value with
    | none =>
      simp only [onMeasurementInput, hpv]
      split_ifs <;> rfl
    | some w =>
      simp only [onMeasurementInput, hpv]
      split_ifs <;> rfl
  · intro hv hk
    have hst2 : onMeasurementInput MUnit.linft (some v) boxes st =
        { st with drawnPerimeterMeters := v / 3.28084 } := by
      simp [onMeasurementInput, posOf, hv, hk]
    rw [hst2]
    exact ⟨rfl, rfl⟩

/-- Claim C7 witness: a concrete positive linft edit on the concrete Area
measurement. -/
theorem edit_frame_conditions_witness :
    (0:ℝ) < 3.28084 ∧ stArea.drawnRawType = RawKind.area ∧
    (onMeasurementInput MUnit.linft (some 3.28084) boxesEmpty stArea).drawnRawMeters =
      stArea.drawnRawMeters ∧
    (onMeasurementInput MUnit.linft (some 3.28084) boxesEmpty stArea).drawnPerimeterMeters =
      3.28084 / 3.28084 := by
  have hv : (0:ℝ) < 3.28084 := by norm_num
  have hk : stArea.drawnRawType = RawKind.area := rfl
  obtain ⟨h1, h2⟩ := (edit_frame_conditions stArea boxesEmpty 3.28084).2 hv hk
  exact ⟨hv, hk, h1, h2⟩

end

end QMach
